import Mathlib

/-!
A shallow embedding of the load/normalize/filter pipeline of the
Restaurant-Radar repository (`europe_restaurants_app.py` and
`restaurant_radar.py`), together with theorems checking the repository's
specification against it.
-/

/-- Decidable equality of `Except` results, so that concrete runs of the
pipeline can be checked by `decide`. -/
instance {ε α : Type} [DecidableEq ε] [DecidableEq α] : DecidableEq (Except ε α)
  | .ok a, .ok b =>
      if h : a = b then .isTrue (by rw [h])
      else .isFalse (by intro hh; cases hh; exact h rfl)
  | .ok _, .error _ => .isFalse (by intro h; cases h)
  | .error _, .ok _ => .isFalse (by intro h; cases h)
  | .error e, .error e2 =>
      if h : e = e2 then .isTrue (by rw [h])
      else .isFalse (by intro hh; cases hh; exact h rfl)

namespace RestaurantApp

/-- Review-volume bucket labels produced by the `pd.cut` call in
`europe_restaurants_app.py` (labels `['Low', 'Medium', 'High']`). -/
inductive Volume where
  | Low
  | Medium
  | High
deriving DecidableEq

/-- One cell of the parsed delimited file, as it stands after `pd.read_csv`:
`num q` is a cell whose (whitespace-stripped) text parses as a number, so
`pd.to_numeric(..., errors="coerce")` turns it into the number `q`;
`str s` is non-numeric text (an object-dtype entry); `missing` is an empty
cell (`NaN`).  Floats are modelled as rationals. -/
inductive RawCell where
  | num (q : ℚ)
  | str (s : String)
  | missing
deriving DecidableEq

/-- A parsed delimited file: the (possibly unstripped) column header and the
rows of cells, aligned positionally with the header.  This models the output
of `pd.read_csv`; the index column consumed by `index_col=0` is not
represented. -/
structure Frame where
  header : List String
  rows : List (List RawCell)
deriving DecidableEq

/-- `pd.to_numeric(cell, errors="coerce")`: numeric cells keep their value,
everything else (non-numeric text, missing) becomes null. -/
def toNumeric : RawCell → Option ℚ
  | .num q => some q
  | _ => none

/-- numpy `astype(int)` on a float value: truncation toward zero. -/
def truncToInt (q : ℚ) : ℤ := if 0 ≤ q then ⌊q⌋ else ⌈q⌉

/-- Python `str.strip()`: drop leading and trailing whitespace characters. -/
def trimStr (s : String) : String :=
  ⟨((s.data.dropWhile Char.isWhitespace).reverse.dropWhile Char.isWhitespace).reverse⟩

/-- `df[c].str.strip()` on one cell: strings are trimmed, other cells kept. -/
def stripCell : RawCell → RawCell
  | .str s => .str (trimStr s)
  | c => c

/-- Lines 71–73 of `europe_restaurants_app.py`: strip every column name and
every string value. -/
def stripFrame (f : Frame) : Frame :=
  { header := f.header.map trimStr,
    rows := f.rows.map (List.map stripCell) }

/-- The `required_columns` list of `europe_restaurants_app.py` (lines 76–79). -/
def requiredColumns : List String :=
  ["Name", "City", "Cuisine Style", "Ranking", "Rating", "Price Range",
   "Number of Reviews"]

/-- `[col for col in required_columns if col not in df.columns]` (line 80). -/
def missingColumns (hdr : List String) : List String :=
  requiredColumns.filter (fun c => decide (c ∉ hdr))

/-- Extract the column with the given name; if the name is absent every cell
reads as `missing`, and cells beyond a short row read as `missing`. -/
def getCol (f : Frame) (name : String) : List RawCell :=
  match f.header.findIdx? (fun c => c == name) with
  | some i => f.rows.map (fun r => r.getD i .missing)
  | none => f.rows.map (fun _ => .missing)

/-- Line 89: `pd.to_numeric(col, errors='coerce').fillna(0).astype(int)`
applied to one cell of the review-count column. -/
def coerceReviewCount (c : RawCell) : ℤ := truncToInt ((toNumeric c).getD 0)

/-- Lines 92–98: the rating column after `pd.to_numeric(..., errors='coerce')`
is filled — with `0` when the whole column is null (pandas `min()` of an
all-null or empty column is `NaN`), otherwise with the column's minimum
observed value. -/
def fillRatings (ns : List (Option ℚ)) : List (Option ℚ) :=
  match (ns.filterMap id).min? with
  | none => ns.map (fun c => some (c.getD 0))
  | some m => ns.map (fun c => some (c.getD m))

/-- Lines 100–105: `pd.cut(counts, bins=[-1, 1000, 3000, np.inf],
labels=['Low', 'Medium', 'High'])` on an integer count.  `pd.cut` uses
right-closed intervals, so `(-1, 1000] ↦ Low`, `(1000, 3000] ↦ Medium`,
`(3000, ∞) ↦ High`, and any value outside every bin (an integer `≤ -1`)
gets no label (`NaN`). -/
def bucket (n : ℤ) : Option Volume :=
  if n ≤ -1 then none
  else if n ≤ 1000 then some .Low
  else if n ≤ 3000 then some .Medium
  else some .High

/-- A source-supplied `review_volume` cell, read as a bucket label when its
text is one of the three label names. -/
def parseVolCell : RawCell → Option Volume
  | .str s =>
      if s = "Low" then some .Low
      else if s = "Medium" then some .Medium
      else if s = "High" then some .High
      else none
  | _ => none

/-- One row of the canonical table produced by `load_data` after the final
rename (`Name → restaurant_name`, `City → city`, `Cuisine Style → cuisine`,
`Rating → rating`, `Price Range → price_range`,
`Number of Reviews → review_count`; `Ranking` keeps its name). -/
structure CleanRow where
  restaurant_name : RawCell
  city : RawCell
  cuisine : RawCell
  ranking : RawCell
  rating : Option ℚ
  price_range : RawCell
  review_count : ℤ
  review_volume : Option Volume
deriving DecidableEq

/-- Load-time failures surfaced by `load_data`: the missing-columns abort
(lines 81–85) and the undecodable-file abort (lines 58–66, carrying the last
loop error and the fallback error). -/
inductive LoadErr where
  | schemaError (missing : List String)
  | undecodable (loopErr fallbackErr : String)
deriving DecidableEq

/-- Row `i` of the canonical table, assembled positionally from the cleaned
columns. -/
def mkRow (names cities cuisines ranks : List RawCell) (ratings : List (Option ℚ))
    (prices : List RawCell) (counts : List ℤ) (vols : List (Option Volume))
    (i : ℕ) : CleanRow :=
  ⟨names.getD i .missing, cities.getD i .missing, cuisines.getD i .missing,
   ranks.getD i .missing, ratings.getD i none, prices.getD i .missing,
   counts.getD i 0, vols.getD i none⟩

/-- Lines 71–116 of `europe_restaurants_app.py` (`load_data` after parsing):
strip names and string values, check the required columns (aborting with the
missing-columns error before any coercion when some are absent), coerce the
review-count column, coerce and fill the rating column, derive the
review-volume bucket when no `review_volume` column already exists, and
rename to the canonical schema. -/
def loadData (f0 : Frame) : Except LoadErr (List CleanRow) :=
  let f := stripFrame f0
  let missing := missingColumns f.header
  if missing.isEmpty then
    let counts := (getCol f "Number of Reviews").map coerceReviewCount
    let ratings := fillRatings ((getCol f "Rating").map toNumeric)
    let volumes :=
      if "review_volume" ∈ f.header then (getCol f "review_volume").map parseVolCell
      else counts.map bucket
    .ok ((List.range f.rows.length).map
      (mkRow (getCol f "Name") (getCol f "City") (getCol f "Cuisine Style")
        (getCol f "Ranking") ratings (getCol f "Price Range") counts volumes))
  else
    .error (.schemaError missing)

/-! ## Filter engine (`europe_restaurants_app.py`, lines 182–190) -/

/-- The user-chosen filter predicate: selected cities, cuisines and price
ranges, the minimum rating, and the review-volume radio choice
(`none` models the `'All'` choice, `some v` a specific bucket). -/
structure Pred where
  cities : List RawCell
  cuisines : List RawCell
  priceRanges : List RawCell
  minRating : ℚ
  reviewVolume : Option Volume

/-- `df['city'].isin(selected_cities)` on one row.  pandas `isin` matches a
null cell against a null entry of the selection, which cell equality models. -/
def cityCond (p : Pred) (r : CleanRow) : Bool := decide (r.city ∈ p.cities)

/-- `df['cuisine'].isin(selected_cuisines)` on one row. -/
def cuisineCond (p : Pred) (r : CleanRow) : Bool := decide (r.cuisine ∈ p.cuisines)

/-- `df['price_range'].isin(price_ranges)` on one row. -/
def priceCond (p : Pred) (r : CleanRow) : Bool := decide (r.price_range ∈ p.priceRanges)

/-- `df['rating'] >= min_rating` on one row; a null rating compares false,
as a pandas `NaN` comparison does. -/
def ratingCond (p : Pred) (r : CleanRow) : Bool :=
  match r.rating with
  | some q => decide (p.minRating ≤ q)
  | none => false

/-- The conditional second mask (lines 189–190): when the radio choice is not
`'All'`, keep only rows whose `review_volume` equals the chosen label; a row
with no label compares false. -/
def volCond (p : Pred) (r : CleanRow) : Bool :=
  match p.reviewVolume with
  | none => true
  | some v => decide (r.review_volume = some v)

/-- Lines 182–190: the boolean-mask selection
`df[(city ∈ cities) & (cuisine ∈ cuisines) & (price ∈ prices) & (rating ≥ min)]`
followed by the conditional `review_volume` mask. -/
def filteredDf (df : List CleanRow) (p : Pred) : List CleanRow :=
  let base := df.filter
    (fun r => cityCond p r && cuisineCond p r && priceCond p r && ratingCond p r)
  match p.reviewVolume with
  | none => base
  | some v => base.filter (fun r => decide (r.review_volume = some v))

/-- Applying a list of single-condition masks one after the other. -/
def applyConds (df : List CleanRow) (cs : List (CleanRow → Bool)) : List CleanRow :=
  cs.foldl (fun d c => d.filter c) df

/-- The inclusive review-count range mask of `restaurant_radar.py`
(lines 113–116), over the canonical row type. -/
def countRangeFilter (df : List CleanRow) (lo hi : ℤ) : List CleanRow :=
  df.filter (fun r => decide (lo ≤ r.review_count) && decide (r.review_count ≤ hi))

/-- The minimum observed rating of a table, `float(df['rating'].min())`
(pandas `min` skips nulls); `0` for an empty column. -/
def ratingMin (df : List CleanRow) : ℚ :=
  ((df.filterMap (fun r => r.rating)).min?).getD 0

/-- The minimum observed review count, `int(data[...].min())`. -/
def countMin (df : List CleanRow) : ℤ :=
  ((df.map (fun r => r.review_count)).min?).getD 0

/-- The maximum observed review count, `int(data[...].max())`. -/
def countMax (df : List CleanRow) : ℤ :=
  ((df.map (fun r => r.review_count)).max?).getD 0

/-! ## Encoding fallback (`europe_restaurants_app.py`, lines 46–66) -/

/-- The five encodings of the `encodings` list (line 46). -/
inductive Enc where
  | utf8
  | utf8sig
  | gbk
  | gb18030
  | latin1
deriving DecidableEq

/-- The name recorded in `used_enc` for each encoding. -/
def encName : Enc → String
  | .utf8 => "utf-8"
  | .utf8sig => "utf-8-sig"
  | .gbk => "gbk"
  | .gb18030 => "gb18030"
  | .latin1 => "latin1"

/-- `encodings = ["utf-8", "utf-8-sig", "gbk", "gb18030", "latin1"]`. -/
def encList : List Enc := [.utf8, .utf8sig, .gbk, .gb18030, .latin1]

/-- Parser mode: the plain `pd.read_csv` call of the loop, or the lenient
fallback call (`engine="python", on_bad_lines="warn"`). -/
inductive Mode where
  | strict
  | lenient
deriving DecidableEq

/-- The `for enc in encodings` loop (lines 49–56): try each encoding in
order, stopping at the first success and remembering the error of the last
failed attempt.  A file is modelled by its parse outcome for each
encoding/mode pair. -/
def tryLoop (p : Enc → Mode → Except String Frame) :
    List Enc → Option String → Option (String × Frame) × Option String
  | [], lastErr => (none, lastErr)
  | e :: es, lastErr =>
      match p e .strict with
      | .ok fr => (some (encName e, fr), lastErr)
      | .error err => tryLoop p es (some err)

/-- Lines 46–66: run the encoding loop; if no encoding succeeded, retry once
with latin1 in the lenient mode, and only when that also fails surface the
undecodable-file error carrying the loop's last error and the fallback
error. -/
def readWithFallback (p : Enc → Mode → Except String Frame) :
    Except LoadErr (String × Frame) :=
  match (tryLoop p encList none).1 with
  | some rr => .ok rr
  | none =>
      match p .latin1 .lenient with
      | .ok fr => .ok ("latin1-fallback", fr)
      | .error e2 => .error (.undecodable ((tryLoop p encList none).2.getD "") e2)

/-! ## The load loop of `restaurant_radar.py` (lines 18–25) -/

/-- Outcome of one `pd.read_csv(path, encoding=enc)` attempt: success, a
`UnicodeDecodeError` (the only exception the loop catches), or any other
exception (for example a parser error), which propagates uncaught. -/
inductive RAttempt where
  | ok (fr : Frame)
  | unicodeErr (msg : String)
  | otherErr (msg : String)

/-- Result of `restaurant_radar.py`'s `load_data`: a parsed frame, the
`ValueError("Unable to decode CSV file. ...")` of the `for`/`else` clause,
or an uncaught exception escaping the loop. -/
inductive RResult where
  | ok (fr : Frame)
  | valueErr
  | raised (msg : String)

/-- latin1 decoding of a byte sequence: every byte value maps to the code
point with the same number, so decoding is total and can never raise
`UnicodeDecodeError`. -/
def latin1Decode (bytes : List ℕ) : List ℕ := bytes.map (fun b => b % 256)

/-- The latin1 attempt of the loop: decode (total), then parse the decoded
text; a parse failure is not a `UnicodeDecodeError`. -/
def latin1Attempt (bytes : List ℕ) (parse : List ℕ → Except String Frame) :
    RAttempt :=
  match parse (latin1Decode bytes) with
  | .ok fr => .ok fr
  | .error m => .otherErr m

/-- The `for enc in ["utf-8", "gbk", "latin1"]` loop with its
`try/except UnicodeDecodeError` body and trailing `else` clause:
success breaks, a decode error continues, any other exception
propagates; an exhausted list runs the `else` clause raising `ValueError`. -/
def radarLoadLoop : List RAttempt → RResult
  | [] => .valueErr
  | a :: rest =>
      match a with
      | .ok fr => .ok fr
      | .unicodeErr _ => radarLoadLoop rest
      | .otherErr m => .raised m

/-- `restaurant_radar.py` lines 18–25: attempts for `utf-8` and `gbk` are
arbitrary (their decoders can fail on some byte sequences); the `latin1`
attempt is computed from the total latin1 decoder. -/
def radarLoad (aUtf8 aGbk : RAttempt) (bytes : List ℕ)
    (parse : List ℕ → Except String Frame) : RResult :=
  radarLoadLoop [aUtf8, aGbk, latin1Attempt bytes parse]

/-! ## Helper lemmas -/

theorem getCol_length (f : Frame) (name : String) :
    (getCol f name).length = f.rows.length := by
  unfold getCol
  cases f.header.findIdx? (fun c => c == name) <;> simp

theorem fillRatings_length (ns : List (Option ℚ)) :
    (fillRatings ns).length = ns.length := by
  unfold fillRatings
  cases (ns.filterMap id).min? <;> simp

theorem fillRatings_isSome (ns : List (Option ℚ)) :
    ∀ x ∈ fillRatings ns, x.isSome := by
  unfold fillRatings
  cases (ns.filterMap id).min? with
  | none =>
      intro x hx
      obtain ⟨c, -, rfl⟩ := List.mem_map.mp hx
      rfl
  | some m =>
      intro x hx
      obtain ⟨c, -, rfl⟩ := List.mem_map.mp hx
      rfl

theorem range_map_getD {α : Type} (l : List α) (d : α) :
    (List.range l.length).map (fun i => l.getD i d) = l := by
  apply List.ext_getElem
  · simp
  · intro i h1 h2
    simp [List.getD_eq_getElem?_getD, List.getElem?_eq_getElem h2]

/-- Unfolding a successful `loadData` run: the required columns were all
present and the table is the positional assembly of the cleaned columns. -/
theorem loadData_ok_eq (f0 : Frame) (t : List CleanRow) (h : loadData f0 = .ok t) :
    missingColumns (stripFrame f0).header = [] ∧
    t = (List.range (stripFrame f0).rows.length).map
        (mkRow (getCol (stripFrame f0) "Name") (getCol (stripFrame f0) "City")
          (getCol (stripFrame f0) "Cuisine Style") (getCol (stripFrame f0) "Ranking")
          (fillRatings ((getCol (stripFrame f0) "Rating").map toNumeric))
          (getCol (stripFrame f0) "Price Range")
          ((getCol (stripFrame f0) "Number of Reviews").map coerceReviewCount)
          (if "review_volume" ∈ (stripFrame f0).header
            then (getCol (stripFrame f0) "review_volume").map parseVolCell
            else ((getCol (stripFrame f0) "Number of Reviews").map coerceReviewCount).map
              bucket)) := by
  unfold loadData at h
  by_cases hm : (missingColumns (stripFrame f0).header).isEmpty
  · rw [if_pos hm] at h
    injection h with h
    exact ⟨List.isEmpty_iff.mp hm, h.symm⟩
  · rw [if_neg hm] at h
    cases h

theorem bucket_of_nonneg {n : ℤ} (h : 0 ≤ n) :
    bucket n = some (if n ≤ 1000 then Volume.Low
      else if n ≤ 3000 then Volume.Medium else Volume.High) := by
  unfold bucket
  rw [if_neg (by omega)]
  by_cases h1 : n ≤ 1000 <;> by_cases h2 : n ≤ 3000 <;> simp [h1, h2]

theorem bucket_of_neg {n : ℤ} (h : n < 0) : bucket n = none := by
  unfold bucket
  rw [if_pos (by omega)]

theorem foldl_min_le_self {α : Type} [LinearOrder α] :
    ∀ (l : List α) (a : α), l.foldl min a ≤ a
  | [], a => le_refl a
  | b :: l, a => le_trans (foldl_min_le_self l (min a b)) (min_le_left a b)

theorem foldl_min_le_mem {α : Type} [LinearOrder α] :
    ∀ (l : List α) (a b : α), b ∈ l → l.foldl min a ≤ b
  | c :: l, a, b, h => by
      rcases List.mem_cons.mp h with rfl | h2
      · exact le_trans (foldl_min_le_self l (min a b)) (min_le_right a b)
      · exact foldl_min_le_mem l (min a c) b h2

theorem min?_le_of_mem {α : Type} [LinearOrder α] {l : List α} {m a : α}
    (hm : l.min? = some m) (ha : a ∈ l) : m ≤ a := by
  cases l with
  | nil => cases ha
  | cons c l =>
      rw [List.min?_cons'] at hm
      injection hm with hm
      subst hm
      rcases List.mem_cons.mp ha with rfl | h2
      · exact foldl_min_le_self l a
      · exact foldl_min_le_mem l c a h2

theorem le_foldl_max_self {α : Type} [LinearOrder α] :
    ∀ (l : List α) (a : α), a ≤ l.foldl max a
  | [], a => le_refl a
  | b :: l, a => le_trans (le_max_left a b) (le_foldl_max_self l (max a b))

theorem mem_le_foldl_max {α : Type} [LinearOrder α] :
    ∀ (l : List α) (a b : α), b ∈ l → b ≤ l.foldl max a
  | c :: l, a, b, h => by
      rcases List.mem_cons.mp h with rfl | h2
      · exact le_trans (le_max_right a b) (le_foldl_max_self l (max a b))
      · exact mem_le_foldl_max l (max a c) b h2

theorem le_max?_of_mem {α : Type} [LinearOrder α] {l : List α} {m a : α}
    (hm : l.max? = some m) (ha : a ∈ l) : a ≤ m := by
  cases l with
  | nil => cases ha
  | cons c l =>
      rw [List.max?_cons'] at hm
      injection hm with hm
      subst hm
      rcases List.mem_cons.mp ha with rfl | h2
      · exact le_foldl_max_self l a
      · exact mem_le_foldl_max l c a h2

/-- All five mask conditions of the filter combined, the way the code ANDs
them (the four-way mask of lines 182–187 plus the conditional
`review_volume` mask of lines 189–190). -/
def fullCond (p : Pred) (r : CleanRow) : Bool :=
  cityCond p r && cuisineCond p r && priceCond p r && ratingCond p r && volCond p r

theorem filteredDf_eq_filter (df : List CleanRow) (p : Pred) :
    filteredDf df p = df.filter (fullCond p) := by
  unfold filteredDf
  cases hv : p.reviewVolume with
  | none =>
      apply List.filter_congr
      intro r _
      simp [fullCond, volCond, hv]
  | some v =>
      show (df.filter
          (fun r => cityCond p r && cuisineCond p r && priceCond p r && ratingCond p r)).filter
          (fun r => decide (r.review_volume = some v)) = df.filter (fullCond p)
      rw [List.filter_filter]
      apply List.filter_congr
      intro r _
      simp only [fullCond, volCond, hv]
      cases cityCond p r <;> cases cuisineCond p r <;> cases priceCond p r <;>
        cases ratingCond p r <;> cases decide (r.review_volume = some v) <;> rfl

theorem filter_swap {α : Type} (l : List α) (p q : α → Bool) :
    (l.filter p).filter q = (l.filter q).filter p := by
  rw [List.filter_filter, List.filter_filter]
  apply List.filter_congr
  intro a _
  exact Bool.and_comm (q a) (p a)

theorem applyConds_cons (df : List CleanRow) (c : CleanRow → Bool)
    (cs : List (CleanRow → Bool)) :
    applyConds df (c :: cs) = applyConds (df.filter c) cs := rfl

theorem applyConds_perm (df : List CleanRow) {cs cs' : List (CleanRow → Bool)}
    (h : cs.Perm cs') : applyConds df cs = applyConds df cs' := by
  induction h generalizing df with
  | nil => rfl
  | cons c _ ih => rw [applyConds_cons, applyConds_cons, ih]
  | swap c c' l =>
      rw [applyConds_cons, applyConds_cons, applyConds_cons, applyConds_cons, filter_swap]
  | trans _ _ ih1 ih2 => rw [ih1, ih2]

theorem filteredDf_eq_applyConds (df : List CleanRow) (p : Pred) :
    filteredDf df p
      = applyConds df [cityCond p, cuisineCond p, priceCond p, ratingCond p, volCond p] := by
  rw [filteredDf_eq_filter]
  show df.filter (fullCond p)
    = ((((df.filter (cityCond p)).filter (cuisineCond p)).filter
        (priceCond p)).filter (ratingCond p)).filter (volCond p)
  rw [List.filter_filter, List.filter_filter, List.filter_filter, List.filter_filter]
  apply List.filter_congr
  intro r _
  simp only [fullCond]
  cases cityCond p r <;> cases cuisineCond p r <;> cases priceCond p r <;>
    cases ratingCond p r <;> cases volCond p r <;> rfl

theorem filteredDf_idem (df : List CleanRow) (p : Pred) :
    filteredDf (filteredDf df p) p = filteredDf df p := by
  rw [filteredDf_eq_filter, filteredDf_eq_filter, List.filter_filter]
  apply List.filter_congr
  intro r _
  cases fullCond p r <;> rfl

theorem tryLoop_all_fail (p : Enc → Mode → Except String Frame) :
    ∀ (es : List Enc) (l0 : Option String),
      (∀ e ∈ es, ∃ err, p e .strict = .error err) →
      (tryLoop p es l0).1 = none
  | [], _, _ => rfl
  | e :: es, l0, h => by
      obtain ⟨err, herr⟩ := h e (List.mem_cons_self e es)
      unfold tryLoop
      rw [herr]
      exact tryLoop_all_fail p es (some err) (fun a ha => h a (List.mem_cons_of_mem _ ha))

theorem tryLoop_first_success (p : Enc → Mode → Except String Frame) :
    ∀ (es1 : List Enc) (e : Enc) (es2 : List Enc) (l0 : Option String) (fr : Frame),
      (∀ a ∈ es1, ∃ err, p a .strict = .error err) →
      p e .strict = .ok fr →
      (tryLoop p (es1 ++ e :: es2) l0).1 = some (encName e, fr)
  | [], e, es2, l0, fr, _, hok => by
      show (tryLoop p (e :: es2) l0).1 = _
      unfold tryLoop
      rw [hok]
  | a :: es1, e, es2, l0, fr, h, hok => by
      obtain ⟨err, herr⟩ := h a (List.mem_cons_self a es1)
      show (tryLoop p (a :: (es1 ++ e :: es2)) l0).1 = _
      unfold tryLoop
      rw [herr]
      exact tryLoop_first_success p es1 e es2 (some err) fr
        (fun b hb => h b (List.mem_cons_of_mem _ hb)) hok

theorem mkRow_review_count (ns cs cus rks : List RawCell) (rs : List (Option ℚ))
    (ps : List RawCell) (cnts : List ℤ) (vols : List (Option Volume)) (i : ℕ) :
    (mkRow ns cs cus rks rs ps cnts vols i).review_count = cnts.getD i 0 := rfl

theorem mkRow_review_volume (ns cs cus rks : List RawCell) (rs : List (Option ℚ))
    (ps : List RawCell) (cnts : List ℤ) (vols : List (Option Volume)) (i : ℕ) :
    (mkRow ns cs cus rks rs ps cnts vols i).review_volume = vols.getD i none := rfl

theorem mkRow_rating (ns cs cus rks : List RawCell) (rs : List (Option ℚ))
    (ps : List RawCell) (cnts : List ℤ) (vols : List (Option Volume)) (i : ℕ) :
    (mkRow ns cs cus rks rs ps cnts vols i).rating = rs.getD i none := rfl

theorem coerceReviewCount_missing : coerceReviewCount .missing = 0 := by decide

theorem coerceReviewCount_str (s : String) : coerceReviewCount (.str s) = 0 := by
  show truncToInt ((none : Option ℚ).getD 0) = 0
  decide

/-! ## Claim C1 -/

/-- A frame whose review-count cell holds the (numeric) value `-5`. -/
def frameNegVolume : Frame :=
  ⟨requiredColumns,
   [[.str "A", .str "Paris", .str "French", .num 1, .num 4, .str "$", .num (-5)]]⟩

/-- C1 counterexample: loading a table whose review-count source value is
`-5` succeeds and yields a row with `review_count = -5 ≤ 1000` whose derived
`review_volume` is null — not `Low`, and not one of the three bucket values —
because `pd.cut` with bins `[-1, 1000, 3000, ∞]` leaves values `≤ -1`
unlabelled. -/
theorem review_volume_bucket_cex :
    (loadData frameNegVolume).map
        (fun t => (t.map (fun r => r.review_count), t.map (fun r => r.review_volume)))
      = .ok ([-5], [none]) ∧
    (-5 : ℤ) ≤ 1000 ∧ (none : Option Volume) ≠ some Volume.Low := by decide

/-- C1 (amended): for every loaded table whose source did not supply a
`review_volume` column, a row with non-negative `review_count` gets bucket
`Low` when `review_count ≤ 1000`, `Medium` when `1000 < review_count ≤ 3000`
and `High` when `review_count > 3000`; a row with negative `review_count`
(possible only from a negative numeric source value) gets a null bucket
instead of one of the three values. -/
theorem review_volume_bucket_amended (f0 : Frame) (t : List CleanRow)
    (hok : loadData f0 = .ok t)
    (hnosrc : "review_volume" ∉ (stripFrame f0).header) :
    ∀ row ∈ t,
      (0 ≤ row.review_count →
        row.review_volume =
          some (if row.review_count ≤ 1000 then Volume.Low
            else if row.review_count ≤ 3000 then Volume.Medium else Volume.High)) ∧
      (row.review_count < 0 → row.review_volume = none) := by
  obtain ⟨-, rfl⟩ := loadData_ok_eq f0 t hok
  intro row hrow
  rw [if_neg hnosrc] at hrow
  simp only [List.mem_map, List.mem_range] at hrow
  obtain ⟨i, hi, rfl⟩ := hrow
  have hlen :
      i < ((getCol (stripFrame f0) "Number of Reviews").map coerceReviewCount).length := by
    rw [List.length_map, getCol_length]
    exact hi
  have hvol :
      (((getCol (stripFrame f0) "Number of Reviews").map coerceReviewCount).map
          bucket).getD i none
        = bucket
          (((getCol (stripFrame f0) "Number of Reviews").map coerceReviewCount).getD i 0) := by
    rw [List.getD_eq_getElem?_getD, List.getD_eq_getElem?_getD, List.getElem?_map,
      List.getElem?_eq_getElem hlen]
    rfl
  constructor
  · intro hpos
    rw [mkRow_review_count] at hpos
    rw [mkRow_review_count, mkRow_review_volume, hvol, bucket_of_nonneg hpos]
  · intro hneg
    rw [mkRow_review_count] at hneg
    rw [mkRow_review_volume, hvol, bucket_of_neg hneg]

/-- A well-formed one-row frame with review count 500. -/
def frameLow : Frame :=
  ⟨requiredColumns,
   [[.str "B", .str "Rome", .str "Italian", .num 2, .num 3, .str "$$", .num 500]]⟩

/-- The canonical row `loadData frameLow` produces. -/
def rowLow : CleanRow :=
  ⟨.str "B", .str "Rome", .str "Italian", .num 2, some 3, .str "$$", 500, some .Low⟩

/-- Witness for the amended C1 at a concrete one-row table. -/
theorem review_volume_bucket_amended_witness :
    (0 ≤ rowLow.review_count →
      rowLow.review_volume =
        some (if rowLow.review_count ≤ 1000 then Volume.Low
          else if rowLow.review_count ≤ 3000 then Volume.Medium else Volume.High)) ∧
    (rowLow.review_count < 0 → rowLow.review_volume = none) :=
  review_volume_bucket_amended frameLow [rowLow] (by decide) (by decide) rowLow (by decide)

/-! ## Claim C3 -/

/-- A frame whose review-count cell holds the (numeric) value `-7`. -/
def frameNegCount : Frame :=
  ⟨requiredColumns,
   [[.str "D", .str "Lyon", .str "French", .num 4, .num 5, .str "$", .num (-7)]]⟩

/-- C3 counterexample: the pipeline accepts a negative numeric review-count
source value unchanged, so the normalized `review_count` can be the negative
integer `-7`; the coercion only turns non-numeric or missing values into 0,
it does not clamp negatives. -/
theorem review_count_nonneg_cex :
    (loadData frameNegCount).map (fun t => t.map (fun r => r.review_count))
      = .ok [-7] ∧ (-7 : ℤ) < 0 := by decide

/-- C3 (amended): after normalization `review_count` is always an integer and
never null, with non-numeric or missing source values coerced to 0; it is
non-negative provided every numeric value of the source review-count column
is non-negative. -/
theorem review_count_coercion_amended (f0 : Frame) (t : List CleanRow)
    (hok : loadData f0 = .ok t) :
    t.map (fun r => r.review_count)
        = (getCol (stripFrame f0) "Number of Reviews").map coerceReviewCount ∧
    coerceReviewCount .missing = 0 ∧
    (∀ s, coerceReviewCount (.str s) = 0) ∧
    ((∀ q : ℚ, RawCell.num q ∈ getCol (stripFrame f0) "Number of Reviews" → 0 ≤ q) →
      ∀ row ∈ t, 0 ≤ row.review_count) := by
  obtain ⟨-, rfl⟩ := loadData_ok_eq f0 t hok
  have hlen :
      ((getCol (stripFrame f0) "Number of Reviews").map coerceReviewCount).length
        = (stripFrame f0).rows.length := by
    rw [List.length_map, getCol_length]
  have hmap :
      ((List.range (stripFrame f0).rows.length).map
          (mkRow (getCol (stripFrame f0) "Name") (getCol (stripFrame f0) "City")
            (getCol (stripFrame f0) "Cuisine Style") (getCol (stripFrame f0) "Ranking")
            (fillRatings ((getCol (stripFrame f0) "Rating").map toNumeric))
            (getCol (stripFrame f0) "Price Range")
            ((getCol (stripFrame f0) "Number of Reviews").map coerceReviewCount)
            (if "review_volume" ∈ (stripFrame f0).header
              then (getCol (stripFrame f0) "review_volume").map parseVolCell
              else ((getCol (stripFrame f0) "Number of Reviews").map coerceReviewCount).map
                bucket))).map (fun r => r.review_count)
        = (getCol (stripFrame f0) "Number of Reviews").map coerceReviewCount := by
    rw [List.map_map]
    conv_lhs => rw [← hlen]
    conv_rhs => rw [← range_map_getD ((getCol (stripFrame f0) "Number of Reviews").map
      coerceReviewCount) 0]
    apply List.map_congr_left
    intro i _
    exact mkRow_review_count _ _ _ _ _ _ _ _ i
  refine ⟨hmap, coerceReviewCount_missing, coerceReviewCount_str, ?_⟩
  · intro hq row hrow
    have hc : row.review_count ∈
        (getCol (stripFrame f0) "Number of Reviews").map coerceReviewCount := by
      rw [← hmap]
      exact List.mem_map.mpr ⟨row, hrow, rfl⟩
    obtain ⟨c, hcm, hce⟩ := List.mem_map.mp hc
    cases c with
    | num q =>
        have hq0 := hq q hcm
        rw [← hce]
        show 0 ≤ truncToInt q
        unfold truncToInt
        rw [if_pos hq0]
        exact Int.floor_nonneg.mpr hq0
    | str s =>
        rw [← hce, coerceReviewCount_str]
    | missing =>
        rw [← hce, coerceReviewCount_missing]

/-- A well-formed one-row frame whose review-count cell is non-numeric. -/
def frameTextCount : Frame :=
  ⟨requiredColumns,
   [[.str "E", .str "Oslo", .str "Nordic", .num 5, .num 4, .str "$$$", .str "many"]]⟩

/-- The canonical row `loadData frameTextCount` produces (count coerced to 0). -/
def rowTextCount : CleanRow :=
  ⟨.str "E", .str "Oslo", .str "Nordic", .num 5, some 4, .str "$$$", 0, some .Low⟩

/-- Witness for the amended C3 at a concrete one-row table. -/
theorem review_count_coercion_amended_witness :
    [rowTextCount].map (fun r => r.review_count)
        = (getCol (stripFrame frameTextCount) "Number of Reviews").map coerceReviewCount ∧
    coerceReviewCount .missing = 0 ∧
    coerceReviewCount (.str "abc") = 0 ∧
    (0 : ℤ) ≤ rowTextCount.review_count := by
  have h := review_count_coercion_amended frameTextCount [rowTextCount] (by decide)
  refine ⟨h.1, h.2.1, h.2.2.1 "abc",
    h.2.2.2 ?_ rowTextCount (List.mem_singleton.mpr rfl)⟩
  intro q hq
  rw [show getCol (stripFrame frameTextCount) "Number of Reviews"
    = [RawCell.str "many"] from by decide] at hq
  simp at hq

/-! ## Claim C2 -/

/-- Modelled from the spec's wording of the rating-cleaning step, for
comparison with the code's `fillRatings`: "coerce `rating` to float, treating
non-numeric values as null; then fill remaining nulls: if the column is
entirely null, fill with 0; otherwise fill with the column's minimum observed
value". -/
def ratingCleanSpec (ns : List (Option ℚ)) : List (Option ℚ) :=
  ns.map (fun c =>
    match c with
    | some q => some q
    | none =>
        if (ns.filterMap id).isEmpty then some 0
        else some (((ns.filterMap id).min?).getD 0))

theorem fillRatings_eq_spec (ns : List (Option ℚ)) :
    fillRatings ns = ratingCleanSpec ns := by
  unfold fillRatings ratingCleanSpec
  cases hm : (ns.filterMap id).min? with
  | none =>
      have he : (ns.filterMap id).isEmpty := by
        rw [List.isEmpty_iff]
        exact List.min?_eq_none_iff.mp hm
      apply List.map_congr_left
      intro c _
      cases c <;> simp [he]
  | some m =>
      have he : (ns.filterMap id).isEmpty = false := by
        cases hl : ns.filterMap id with
        | nil => rw [hl, List.min?_nil] at hm; cases hm
        | cons a l => rfl
      apply List.map_congr_left
      intro c _
      cases c <;> simp [he, hm]

/-- C2: for every successfully loaded table, every row's rating is non-null,
and the rating column is exactly the spec's cleaning rule (coerce to number
with non-numeric as null, fill with 0 when the whole column is null and with
the column minimum otherwise) applied to the source `Rating` column. -/
theorem rating_cleaning_spec (f0 : Frame) (t : List CleanRow)
    (hok : loadData f0 = .ok t) :
    (∀ row ∈ t, (row.rating).isSome) ∧
    t.map (fun r => r.rating)
      = ratingCleanSpec ((getCol (stripFrame f0) "Rating").map toNumeric) := by
  obtain ⟨-, rfl⟩ := loadData_ok_eq f0 t hok
  have hlen :
      (fillRatings ((getCol (stripFrame f0) "Rating").map toNumeric)).length
        = (stripFrame f0).rows.length := by
    rw [fillRatings_length, List.length_map, getCol_length]
  constructor
  · intro row hrow
    simp only [List.mem_map, List.mem_range] at hrow
    obtain ⟨i, hi, rfl⟩ := hrow
    rw [mkRow_rating]
    have hilt : i < (fillRatings ((getCol (stripFrame f0) "Rating").map toNumeric)).length := by
      rw [hlen]
      exact hi
    rw [List.getD_eq_getElem?_getD, List.getElem?_eq_getElem hilt]
    exact fillRatings_isSome _ _ (List.getElem_mem hilt)
  · rw [← fillRatings_eq_spec, List.map_map]
    conv_lhs => rw [← hlen]
    conv_rhs => rw [← range_map_getD (fillRatings
      ((getCol (stripFrame f0) "Rating").map toNumeric)) none]
    apply List.map_congr_left
    intro i _
    exact mkRow_rating _ _ _ _ _ _ _ _ i

/-- A well-formed one-row frame whose rating cell is missing. -/
def frameNullRating : Frame :=
  ⟨requiredColumns,
   [[.str "F", .str "Wien", .str "Cafe", .num 6, .missing, .str "$$", .num 10]]⟩

/-- The canonical row `loadData frameNullRating` produces (all-null rating
column filled with 0). -/
def rowNullRating : CleanRow :=
  ⟨.str "F", .str "Wien", .str "Cafe", .num 6, some 0, .str "$$", 10, some .Low⟩

/-- Witness for C2 at a concrete one-row table whose rating was missing. -/
theorem rating_cleaning_spec_witness :
    (rowNullRating.rating).isSome ∧
    [rowNullRating].map (fun r => r.rating)
      = ratingCleanSpec ((getCol (stripFrame frameNullRating) "Rating").map toNumeric) := by
  have h := rating_cleaning_spec frameNullRating [rowNullRating] (by decide)
  exact ⟨h.1 rowNullRating (List.mem_singleton.mpr rfl), h.2⟩

/-! ## Claim C4 -/

/-- C4: filtering a canonical table (whose ratings are all non-null, the
load-time invariant) with every observed city, cuisine and price range
selected, the minimum observed rating, the `All` bucket, and the full
observed review-count range returns the table unchanged, row for row. -/
theorem select_all_full_table (df : List CleanRow)
    (hr : ∀ r ∈ df, (r.rating).isSome) :
    countRangeFilter
      (filteredDf df
        ⟨df.map (fun r => r.city), df.map (fun r => r.cuisine),
         df.map (fun r => r.price_range), ratingMin df, none⟩)
      (countMin df) (countMax df) = df := by
  have hfull : filteredDf df
      ⟨df.map (fun r => r.city), df.map (fun r => r.cuisine),
       df.map (fun r => r.price_range), ratingMin df, none⟩ = df := by
    rw [filteredDf_eq_filter, List.filter_eq_self]
    intro r hrm
    have hcity : cityCond
        ⟨df.map (fun r => r.city), df.map (fun r => r.cuisine),
         df.map (fun r => r.price_range), ratingMin df, none⟩ r = true :=
      decide_eq_true (List.mem_map.mpr ⟨r, hrm, rfl⟩)
    have hcui : cuisineCond
        ⟨df.map (fun r => r.city), df.map (fun r => r.cuisine),
         df.map (fun r => r.price_range), ratingMin df, none⟩ r = true :=
      decide_eq_true (List.mem_map.mpr ⟨r, hrm, rfl⟩)
    have hpri : priceCond
        ⟨df.map (fun r => r.city), df.map (fun r => r.cuisine),
         df.map (fun r => r.price_range), ratingMin df, none⟩ r = true :=
      decide_eq_true (List.mem_map.mpr ⟨r, hrm, rfl⟩)
    have hrat : ratingCond
        ⟨df.map (fun r => r.city), df.map (fun r => r.cuisine),
         df.map (fun r => r.price_range), ratingMin df, none⟩ r = true := by
      cases hq : r.rating with
      | none =>
          have hs := hr r hrm
          rw [hq] at hs
          cases hs
      | some q =>
          have hqm : q ∈ df.filterMap (fun r => r.rating) :=
            List.mem_filterMap.mpr ⟨r, hrm, hq⟩
          show ratingCond _ r = true
          unfold ratingCond
          rw [hq]
          cases hmin : (df.filterMap (fun r => r.rating)).min? with
          | none =>
              rw [List.min?_eq_none_iff] at hmin
              rw [hmin] at hqm
              cases hqm
          | some m =>
              apply decide_eq_true
              show ratingMin df ≤ q
              unfold ratingMin
              rw [hmin]
              exact min?_le_of_mem hmin hqm
    show (cityCond _ r && cuisineCond _ r && priceCond _ r && ratingCond _ r
      && volCond _ r) = true
    rw [hcity, hcui, hpri, hrat]
    rfl
  rw [hfull]
  unfold countRangeFilter
  rw [List.filter_eq_self]
  intro r hrm
  have hmem : r.review_count ∈ df.map (fun r => r.review_count) :=
    List.mem_map.mpr ⟨r, hrm, rfl⟩
  cases hmin : (df.map (fun r => r.review_count)).min? with
  | none =>
      rw [List.min?_eq_none_iff] at hmin
      rw [hmin] at hmem
      cases hmem
  | some lo =>
      cases hmax : (df.map (fun r => r.review_count)).max? with
      | none =>
          rw [List.max?_eq_none_iff] at hmax
          rw [hmax] at hmem
          cases hmem
      | some hi =>
          have h1 := min?_le_of_mem hmin hmem
          have h2 := le_max?_of_mem hmax hmem
          unfold countMin countMax
          rw [hmin, hmax]
          simp [h1, h2]

/-- A concrete canonical row for the C4 witness. -/
def rowMid : CleanRow :=
  ⟨.str "G", .str "Porto", .str "Seafood", .num 7, some 4, .str "$$", 2000,
   some .Medium⟩

/-- Witness for C4 at a concrete one-row table. -/
theorem select_all_full_table_witness :
    countRangeFilter
      (filteredDf [rowMid]
        ⟨[rowMid].map (fun r => r.city), [rowMid].map (fun r => r.cuisine),
         [rowMid].map (fun r => r.price_range), ratingMin [rowMid], none⟩)
      (countMin [rowMid]) (countMax [rowMid]) = [rowMid] :=
  select_all_full_table [rowMid] (by decide)

/-! ## Claim C5 -/

/-- C5: when, after whitespace-trimming, the header lacks some required
column, `load_data` aborts with the schema error whose list is exactly the
required columns absent from the header — no table is produced, so no
coercion or derivation is applied. -/
theorem missing_columns_schema_error (f0 : Frame)
    (h : missingColumns (stripFrame f0).header ≠ []) :
    loadData f0 = .error (.schemaError (missingColumns (stripFrame f0).header)) ∧
    ∀ c, c ∈ missingColumns (stripFrame f0).header ↔
      (c ∈ requiredColumns ∧ c ∉ (stripFrame f0).header) := by
  constructor
  · unfold loadData
    rw [if_neg]
    intro hh
    exact h (List.isEmpty_iff.mp hh)
  · intro c
    unfold missingColumns
    simp [List.mem_filter]

/-- A frame whose header lacks the `Rating` column. -/
def frameMissingRating : Frame :=
  ⟨["Name", "City", "Cuisine Style", "Ranking", "Price Range",
    "Number of Reviews"], []⟩

/-- Witness for C5: loading a header without `Rating` gives the schema error
listing exactly the missing columns. -/
theorem missing_columns_schema_error_witness :
    loadData frameMissingRating
        = .error (.schemaError (missingColumns (stripFrame frameMissingRating).header)) ∧
    ("Rating" ∈ missingColumns (stripFrame frameMissingRating).header ↔
      ("Rating" ∈ requiredColumns ∧ "Rating" ∉ (stripFrame frameMissingRating).header)) := by
  have h := missing_columns_schema_error frameMissingRating (by decide)
  exact ⟨h.1, h.2 "Rating"⟩

/-! ## Claim C6 -/

/-- C6: the loader (i) returns at the first encoding in the ordered list
whose strict parse succeeds, recording that encoding's name; (ii) when every
strict attempt fails, retries exactly once with latin1 in the lenient parser
mode and returns its result tagged `latin1-fallback`; and (iii) only when
that retry also fails surfaces the undecodable-file error carrying the
underlying errors. -/
theorem encoding_fallback_spec (p : Enc → Mode → Except String Frame) :
    (∀ (es1 : List Enc) (e : Enc) (es2 : List Enc) (fr : Frame),
        encList = es1 ++ e :: es2 →
        (∀ a ∈ es1, ∃ err, p a .strict = .error err) →
        p e .strict = .ok fr →
        readWithFallback p = .ok (encName e, fr)) ∧
    (∀ fr : Frame,
        (∀ a ∈ encList, ∃ err, p a .strict = .error err) →
        p .latin1 .lenient = .ok fr →
        readWithFallback p = .ok ("latin1-fallback", fr)) ∧
    (∀ e2 : String,
        (∀ a ∈ encList, ∃ err, p a .strict = .error err) →
        p .latin1 .lenient = .error e2 →
        ∃ e1, readWithFallback p = .error (.undecodable e1 e2)) := by
  refine ⟨?_, ?_, ?_⟩
  · intro es1 e es2 fr hsplit hfail hok
    unfold readWithFallback
    rw [hsplit, tryLoop_first_success p es1 e es2 none fr hfail hok]
  · intro fr hfail hok
    unfold readWithFallback
    rw [tryLoop_all_fail p encList none hfail, hok]
  · intro e2 hfail herr
    unfold readWithFallback
    rw [tryLoop_all_fail p encList none hfail, herr]
    exact ⟨_, rfl⟩

/-- An empty parsed frame used by the encoding witnesses. -/
def frameEnc : Frame := ⟨["A"], []⟩

/-- A concrete file behaviour: the utf-8 strict parse fails, every other
attempt succeeds. -/
def parseEnc : Enc → Mode → Except String Frame
  | .utf8, _ => .error "utf-8 failed"
  | _, _ => .ok frameEnc

/-- Witness for C6: with utf-8 failing and utf-8-sig succeeding, the loader
returns the utf-8-sig parse and records that encoding. -/
theorem encoding_fallback_spec_witness :
    readWithFallback parseEnc = .ok (encName .utf8sig, frameEnc) :=
  (encoding_fallback_spec parseEnc).1 [.utf8] .utf8sig [.gbk, .gb18030, .latin1]
    frameEnc rfl
    (by
      intro a ha
      rcases List.mem_singleton.mp ha with rfl
      exact ⟨"utf-8 failed", rfl⟩)
    rfl

/-! ## Claim C7 -/

/-- C7: the filter is total by construction, and a predicate whose cities
selection is empty yields the empty table rather than an error, whatever the
other sub-conditions are. -/
theorem empty_cities_empty_result (df : List CleanRow) (cuisines prices : List RawCell)
    (m : ℚ) (v : Option Volume) :
    filteredDf df ⟨[], cuisines, prices, m, v⟩ = [] := by
  rw [filteredDf_eq_filter, List.filter_eq_nil_iff]
  intro r _
  simp [fullCond, cityCond]

/-! ## Claim C8 -/

/-- C8: filtering is idempotent — applying the same predicate twice gives the
same rows as applying it once — and the filter equals the chain of its five
sub-condition masks, whose application order never changes the result
(AND-commutativity, stated for every permutation of any mask list). -/
theorem filter_idempotent_and_commutative (df : List CleanRow) (p : Pred) :
    filteredDf (filteredDf df p) p = filteredDf df p ∧
    filteredDf df p
        = applyConds df [cityCond p, cuisineCond p, priceCond p, ratingCond p, volCond p] ∧
    ∀ cs cs' : List (CleanRow → Bool), cs.Perm cs' →
      applyConds df cs = applyConds df cs' :=
  ⟨filteredDf_idem df p, filteredDf_eq_applyConds df p,
   fun _ _ h => applyConds_perm df h⟩

/-- A concrete predicate for the C8 witness. -/
def predW8 : Pred := ⟨[.str "Porto"], [.str "Seafood"], [.str "$$"], 3, some .Medium⟩

/-- Witness for C8 at a concrete table and predicate, with a concrete
transposition of two sub-conditions. -/
theorem filter_idempotent_and_commutative_witness :
    filteredDf (filteredDf [rowMid] predW8) predW8 = filteredDf [rowMid] predW8 ∧
    applyConds [rowMid] [cityCond predW8, cuisineCond predW8]
        = applyConds [rowMid] [cuisineCond predW8, cityCond predW8] := by
  have h := filter_idempotent_and_commutative [rowMid] predW8
  exact ⟨h.1, h.2.2 _ _ (List.Perm.swap _ _ _)⟩

/-! ## Claim C9 -/

/-- C9: filtering never mutates the canonical table — in this embedding every
operation is a pure function of it — and each filter result is a new derived
table that is a sublist (an order-preserving row subset) of its input. -/
theorem filter_preserves_canonical (df : List CleanRow) (p : Pred) :
    (filteredDf df p).Sublist df := by
  rw [filteredDf_eq_filter]
  exact List.filter_sublist df

/-! ## Claim C10 -/

/-- `True` exactly on the `ValueError` result of the radar loader. -/
def isValueErr : RResult → Bool
  | .valueErr => true
  | _ => false

/-- C10: the `for`/`else` branch of `restaurant_radar.py`'s `load_data`
raising `ValueError("Unable to decode CSV file. ...")` is unreachable: only
an all-`UnicodeDecodeError` pass through the encoding list reaches the
`else` clause, and the final latin1 attempt can never raise one because
latin1 decodes every byte sequence. -/
theorem radar_value_error_unreachable (aUtf8 aGbk : RAttempt) (bytes : List ℕ)
    (parse : List ℕ → Except String Frame) :
    isValueErr (radarLoad aUtf8 aGbk bytes parse) = false := by
  unfold radarLoad
  cases aUtf8 with
  | ok fr => rfl
  | otherErr m => rfl
  | unicodeErr m =>
      cases aGbk with
      | ok fr => rfl
      | otherErr m2 => rfl
      | unicodeErr m2 =>
          show isValueErr (radarLoadLoop [latin1Attempt bytes parse]) = false
          unfold latin1Attempt
          cases parse (latin1Decode bytes) with
          | ok fr => rfl
          | error m3 => rfl

end RestaurantApp
